import Mathlib

/-!
Shallow embedding of `idgen.go` (package idgen).

Bytes are modelled as natural numbers below 256, byte slices as `List Nat`,
Go `int64` values as `Int` together with their 64-bit two's-complement byte
serialization, and the xxhash `Sum64` digest as an abstract function
parameter `h : List Nat → Nat` (its low 64 bits are what a Go `uint64`
holds).  Channels are modelled by the stream of values a receiver obtains,
and the background goroutines of `GenerateIDs` by the pure function
computing the value one loop iteration sends.
-/

namespace Idgen

/-- Little-endian byte serialization of a natural number into `w` bytes
(the low `8*w` bits), least significant byte first.  This is what
`encoding/binary` produces for an unsigned fixed-size integer with
`binary.LittleEndian`. -/
def natToLEBytes : Nat → Nat → List Nat
  | 0, _ => []
  | w + 1, n => (n % 256) :: natToLEBytes w (n / 256)

/-- Value of a little-endian byte sequence, least significant byte first.
This is how `encoding/binary.Read` with `binary.LittleEndian` assembles an
unsigned integer from bytes. -/
def leBytesToNat : List Nat → Nat
  | [] => 0
  | b :: bs => b + 256 * leBytesToNat bs

/-- The unsigned 64-bit two's-complement bit pattern of a Go `int64`
value: its residue modulo 2^64. -/
def int64ToUInt64 (v : Int) : Nat :=
  (v % (2 : Int) ^ 64).toNat

/-- Reinterpret an unsigned 64-bit value as a Go `int64`: values with the
top bit set are negative (two's complement). -/
def uint64ToInt64 (n : Nat) : Int :=
  if n < 2 ^ 63 then (n : Int) else (n : Int) - 2 ^ 64

/-- Go `binary.Write(buf, binary.LittleEndian, v)` for an `int64` value
`v`: appends the 8 little-endian bytes of its two's-complement pattern. -/
def binaryWriteInt64 (buf : List Nat) (v : Int) : List Nat :=
  buf ++ natToLEBytes 8 (int64ToUInt64 v)

/-- Go `binary.Write(buf, binary.LittleEndian, v)` for a `uint64` value:
appends its 8 little-endian bytes (the low 64 bits of `v`, which is all a
Go `uint64` can hold). -/
def binaryWriteUInt64 (buf : List Nat) (v : Nat) : List Nat :=
  buf ++ natToLEBytes 8 v

/-- Go `binary.Write(buf, binary.LittleEndian, bs)` for a byte slice
(such as `net.HardwareAddr`): appends the bytes unchanged. -/
def binaryWriteBytes (buf : List Nat) (bs : List Nat) : List Nat :=
  buf ++ bs

/-- Go `binary.Write(buf, binary.LittleEndian, v)` where `v` is a plain
`int` (platform-width), as in `binary.Write(uniquePart, binary.LittleEndian,
routineID)` at idgen.go:61.  `encoding/binary` only accepts fixed-size
types; a plain `int` makes `Write` return the error `binary.Write: invalid
type int` after writing nothing.  `GenerateIDs` discards the returned
error, so the buffer is left unchanged. -/
def binaryWriteGoInt (buf : List Nat) (_v : Int) : List Nat :=
  buf

/-- Contents of the `uniquePart` buffer hashed in one iteration of the
goroutine started by `GenerateIDs` (idgen.go:49-61): after
`uniquePart.Reset()`, the loop writes the captured timestamp (`int64`,
little-endian), then the mac byte slice, then `routineID` (a plain `int`,
which `binary.Write` rejects without writing, see `binaryWriteGoInt`). -/
def uniquePartBytes (timestamp : Int) (mac : List Nat) (routineID : Int) : List Nat :=
  binaryWriteGoInt (binaryWriteBytes (binaryWriteInt64 [] timestamp) mac) routineID

/-- The byte slice one iteration of the goroutine started by `GenerateIDs`
sends on `resultChan` (idgen.go:71-75): a fresh output buffer receiving the
captured timestamp (`int64`, little-endian) followed by `hash.Sum64()`
(`uint64`, little-endian), where the hash state was reset and fed exactly
the `uniquePart` bytes.  The xxhash digest is the abstract parameter
`h` applied to those bytes. -/
def generateIDsOnce (h : List Nat → Nat) (timestamp : Int) (mac : List Nat)
    (routineID : Int) : List Nat :=
  binaryWriteUInt64 (binaryWriteInt64 [] timestamp) (h (uniquePartBytes timestamp mac routineID))

/-- Go `GetUnixNanoFromID` (idgen.go:104-108): `result` starts as the zero
value of `int64`; `binary.Read(bytes.NewReader(id), binary.LittleEndian,
&result)` fills it from the first 8 bytes of `id` when `id` has at least 8
bytes, and otherwise fails, leaving `result` at 0 — the error is
discarded, so 0 is returned. -/
def GetUnixNanoFromID (id : List Nat) : Int :=
  if 8 ≤ id.length then uint64ToInt64 (leBytesToNat (id.take 8)) else 0

/-- A network interface as `GetMACAddress` sees it: `net.Interface`
restricted to the two fields the function reads. -/
structure NetInterface where
  name : String
  hardwareAddr : List Nat
deriving DecidableEq

/-- Result of `GetMACAddress`: either a hardware address, or the error the
function returns (`nil` address in Go). -/
inductive MACResult where
  | ok (addr : List Nat)
  | err (msg : String)
deriving DecidableEq

/-- The error message built at idgen.go:26. -/
def noSuitableMsg : String :=
  "Could not find a MAC address to use in unique IDs No suitable interface on this machine."

/-- The `for` loop of `GetMACAddress` (idgen.go:21-25): return the first
interface whose `Name` is not the literal string lo, scanning in order. -/
def firstNonLo : List NetInterface → Option NetInterface
  | [] => none
  | i :: rest => if i.name ≠ "lo" then some i else firstNonLo rest

/-- Go `GetMACAddress` (idgen.go:16-27), parameterized by the outcome of
`net.Interfaces()`: if enumeration failed its error is propagated; else
the hardware address of the first interface not named lo is returned as
is (no validation), and if every interface is named lo the
no-suitable-interface error is returned. -/
def GetMACAddress (enum : Except String (List NetInterface)) : MACResult :=
  match enum with
  | .error e => .err e
  | .ok ifaces =>
    match firstNonLo ifaces with
    | some i => .ok i.hardwareAddr
    | none => .err noSuitableMsg

/-- What `GenerateNIDs` builds and returns: the capacity of the shared
results channel, the `(mac, routineID)` arguments of the `GenerateIDs`
calls in spawn order, and the returned slice of ids. -/
structure BatchRun where
  chanCapacity : Nat
  producers : List (List Nat × Nat)
  ids : List (List Nat)
deriving DecidableEq

/-- Go `GenerateNIDs` (idgen.go:81-99).  `cpuCount` models
`runtime.GOMAXPROCS(0)`; `recv i` models the value obtained by the `i`-th
receive from the `results` channel.  The function makes a channel of
capacity `128*CPUCount`, calls `GenerateIDs mac routineID results` for
`routineID = 0, ..., CPUCount-1`, then fills `ids[i] <- recv i` for
`i = 0, ..., n-1` and returns. -/
def GenerateNIDs (cpuCount : Nat) (recv : Nat → List Nat) (mac : List Nat)
    (n : Nat) : BatchRun :=
  { chanCapacity := 128 * cpuCount
  , producers := (List.range cpuCount).map (fun routineID => (mac, routineID))
  , ids := (List.range n).map recv }

/-- Go `ByIDCreationTime.Less` (idgen.go:117-120) on the slice `a`:
`GetUnixNanoFromID(a[i]) < GetUnixNanoFromID(a[j])` (out-of-range indices
would panic in Go; `getD` is only consulted at in-range indices by the
theorems below). -/
def lessByCreationTime (a : List (List Nat)) (i j : Nat) : Bool :=
  decide (GetUnixNanoFromID (a.getD i []) < GetUnixNanoFromID (a.getD j []))

/-- The non-strict total order induced by the comparator
`ByIDCreationTime.Less`: `x` need not come after `y`, i.e.
`!Less y x`, i.e. `GetUnixNanoFromID x ≤ GetUnixNanoFromID y`.  A sequence
is sorted by `sort.Sort(ByIDCreationTime(a))` exactly when consecutive
elements are related by this order. -/
def idOrder (x y : List Nat) : Prop :=
  GetUnixNanoFromID x ≤ GetUnixNanoFromID y

instance : DecidableRel idOrder :=
  fun x y => inferInstanceAs (Decidable (GetUnixNanoFromID x ≤ GetUnixNanoFromID y))

instance : IsTotal (List Nat) idOrder :=
  ⟨fun x y => Int.le_total (GetUnixNanoFromID x) (GetUnixNanoFromID y)⟩

instance : IsTrans (List Nat) idOrder :=
  ⟨fun _ _ _ hxy hyz => le_trans hxy hyz⟩

/-- Sorting a slice of ids with the `ByIDCreationTime` comparator, as
`sort.Sort(ByIDCreationTime(a))` does (modelled by insertion sort over
`idOrder`, the non-strict complement of `Less`; any comparison sort
driven by `Less` yields a permutation ordered this way). -/
def sortByCreationTime (a : List (List Nat)) : List (List Nat) :=
  List.insertionSort idOrder a

/-! Helper lemmas about the byte-level serialization. -/

theorem natToLEBytes_length (w n : Nat) : (natToLEBytes w n).length = w := by
  induction w generalizing n with
  | zero => rfl
  | succ w ih => simp [natToLEBytes, ih]

theorem leBytesToNat_natToLEBytes (w n : Nat) :
    leBytesToNat (natToLEBytes w n) = n % 2 ^ (8 * w) := by
  induction w generalizing n with
  | zero => simp [natToLEBytes, leBytesToNat, Nat.mod_one]
  | succ w ih =>
    have hpow : (2 : Nat) ^ (8 * (w + 1)) = 256 * 2 ^ (8 * w) := by
      rw [Nat.mul_succ, pow_add]
      ring
    rw [natToLEBytes, leBytesToNat, ih, hpow, Nat.mod_mul]

theorem int64ToUInt64_lt (v : Int) : int64ToUInt64 v < 2 ^ 64 := by
  have h1 : 0 ≤ v % (2 : Int) ^ 64 := Int.emod_nonneg v (by positivity)
  have h2 : v % (2 : Int) ^ 64 < 2 ^ 64 := Int.emod_lt_of_pos v (by positivity)
  have h64 : (2 : Int) ^ 64 = 18446744073709551616 := by norm_num
  have h64n : (2 : Nat) ^ 64 = 18446744073709551616 := by norm_num
  rw [h64] at h1 h2
  rw [int64ToUInt64, h64, h64n]
  omega

theorem uint64ToInt64_int64ToUInt64 (v : Int) (hlo : -(2 : Int) ^ 63 ≤ v)
    (hhi : v < 2 ^ 63) : uint64ToInt64 (int64ToUInt64 v) = v := by
  have h1 : 0 ≤ v % (2 : Int) ^ 64 := Int.emod_nonneg v (by positivity)
  have hc : v % (2 : Int) ^ 64 = v - 2 ^ 64 * (v / 2 ^ 64) := Int.emod_def v _
  have h64 : (2 : Int) ^ 64 = 18446744073709551616 := by norm_num
  have h63 : (2 : Int) ^ 63 = 9223372036854775808 := by norm_num
  have h63n : (2 : Nat) ^ 63 = 9223372036854775808 := by norm_num
  rw [h63] at hlo hhi
  rw [uint64ToInt64, int64ToUInt64, h64, h63n]
  rw [h64] at h1 hc
  split
  · omega
  · omega

theorem generateIDsOnce_eq (h : List Nat → Nat) (timestamp : Int) (mac : List Nat)
    (routineID : Int) :
    generateIDsOnce h timestamp mac routineID =
      natToLEBytes 8 (int64ToUInt64 timestamp) ++
        natToLEBytes 8 (h (uniquePartBytes timestamp mac routineID)) := by
  rw [generateIDsOnce, binaryWriteUInt64, binaryWriteInt64, List.nil_append]

/-! Claim theorems. -/

/-- C1 (code bug evidence): at timestamp 7, mac 01:02:03:04:05:06 and
routineID 1, the bytes hashed by a `GenerateIDs` iteration are only the 14
bytes of timestamp and mac — identical to the routineID-0 entropy and not
the 22 bytes (8 timestamp + 6 mac + 8 platform-word worker index) the
claim describes — because `binary.Write` rejects the plain `int`
`routineID` and the error is discarded. -/
theorem C1_workerIndexDropped :
    uniquePartBytes 7 [1, 2, 3, 4, 5, 6] 1 = [7, 0, 0, 0, 0, 0, 0, 0, 1, 2, 3, 4, 5, 6] ∧
    uniquePartBytes 7 [1, 2, 3, 4, 5, 6] 1 = uniquePartBytes 7 [1, 2, 3, 4, 5, 6] 0 ∧
    (uniquePartBytes 7 [1, 2, 3, 4, 5, 6] 1).length ≠ 22 := by
  decide

/-- C2 (counterexample): on a 9-byte input — the first 9 bytes of the test
vector from idgen_test.go — `GetUnixNanoFromID` does not fail: it returns
the timestamp decoded from the first 8 bytes, although the length is not
16. -/
theorem C2_noError_counterexample :
    ([126, 88, 220, 206, 40, 218, 189, 20, 155] : List Nat).length ≠ 16 ∧
    GetUnixNanoFromID [126, 88, 220, 206, 40, 218, 189, 20, 155] = 1494590520160966782 := by
  decide

/-- C2 (amended): `GetUnixNanoFromID` never signals an error for any input
length; it depends only on the first 8 bytes of its input, and on inputs
shorter than 8 bytes it returns 0. -/
theorem C2_amended_firstEightBytesOnly (id : List Nat) :
    GetUnixNanoFromID id = GetUnixNanoFromID (id.take 8) ∧
    (id.length < 8 → GetUnixNanoFromID id = 0) := by
  constructor
  · rcases le_or_lt 8 id.length with hle | hlt
    · rw [GetUnixNanoFromID, GetUnixNanoFromID, if_pos hle,
        if_pos (by rw [List.length_take]; omega), List.take_take]
      norm_num
    · rw [GetUnixNanoFromID, GetUnixNanoFromID, if_neg (by omega),
        if_neg (by rw [List.length_take]; omega)]
  · intro hlt
    rw [GetUnixNanoFromID, if_neg (by omega)]

/-- C2 (witness for the amended theorem). -/
theorem C2_amended_witness :
    GetUnixNanoFromID [5, 6, 7] = GetUnixNanoFromID ([5, 6, 7].take 8) ∧
    GetUnixNanoFromID [5, 6, 7] = 0 :=
  ⟨(C2_amended_firstEightBytesOnly [5, 6, 7]).1,
   (C2_amended_firstEightBytesOnly [5, 6, 7]).2 (by decide)⟩

/-- C3: `GenerateNIDs` returns exactly `n` identifiers, and its `i`-th
element is the value obtained by the `i`-th receive from the shared
results channel, in receipt order — for every `cpuCount`, receive stream,
mac and `n`, including `n = 0`. -/
theorem C3_returnsExactlyN (cpuCount : Nat) (recv : Nat → List Nat)
    (mac : List Nat) (n : Nat) :
    (GenerateNIDs cpuCount recv mac n).ids.length = n ∧
    ∀ i, i < n → (GenerateNIDs cpuCount recv mac n).ids.getD i [] = recv i := by
  constructor
  · simp [GenerateNIDs]
  · intro i hi
    simp [GenerateNIDs, List.getD_eq_getElem?_getD, List.getElem?_map,
      List.getElem?_range hi]

/-- C3 (witness). -/
theorem C3_returnsExactlyN_witness :
    (GenerateNIDs 2 (fun k => [k]) [9] 3).ids.length = 3 ∧
    (1 < 3) ∧
    (GenerateNIDs 2 (fun k => [k]) [9] 3).ids.getD 1 [] = [1] :=
  ⟨(C3_returnsExactlyN 2 (fun k => [k]) [9] 3).1, by decide,
   (C3_returnsExactlyN 2 (fun k => [k]) [9] 3).2 1 (by decide)⟩

/-- C4: every identifier sent to the output channel by a `GenerateIDs`
iteration has length exactly 16, consisting of the 8 little-endian
timestamp bytes followed by the 8 little-endian bytes of the 64-bit hash
digest of the entropy buffer. -/
theorem C4_idLength16 (h : List Nat → Nat) (timestamp : Int) (mac : List Nat)
    (routineID : Int) :
    (generateIDsOnce h timestamp mac routineID).length = 16 ∧
    (generateIDsOnce h timestamp mac routineID).take 8 =
      natToLEBytes 8 (int64ToUInt64 timestamp) ∧
    (generateIDsOnce h timestamp mac routineID).drop 8 =
      natToLEBytes 8 (h (uniquePartBytes timestamp mac routineID)) := by
  have hts : (natToLEBytes 8 (int64ToUInt64 timestamp)).length = 8 :=
    natToLEBytes_length 8 _
  have hdg : (natToLEBytes 8 (h (uniquePartBytes timestamp mac routineID))).length = 8 :=
    natToLEBytes_length 8 _
  refine ⟨?_, ?_, ?_⟩
  · rw [generateIDsOnce_eq, List.length_append, hts, hdg]
  · rw [generateIDsOnce_eq, List.take_left' hts]
  · rw [generateIDsOnce_eq, List.drop_left' hts]

/-- C5: round-trip — for every timestamp in the `int64` range, every hash
function, mac and routineID, `GetUnixNanoFromID` applied to the identifier
a `GenerateIDs` iteration produces returns exactly the captured
timestamp. -/
theorem C5_timestampRoundTrip (h : List Nat → Nat) (timestamp : Int)
    (mac : List Nat) (routineID : Int) (hlo : -(2 : Int) ^ 63 ≤ timestamp)
    (hhi : timestamp < 2 ^ 63) :
    GetUnixNanoFromID (generateIDsOnce h timestamp mac routineID) = timestamp := by
  have hts : (natToLEBytes 8 (int64ToUInt64 timestamp)).length = 8 :=
    natToLEBytes_length 8 _
  have hdg : (natToLEBytes 8 (h (uniquePartBytes timestamp mac routineID))).length = 8 :=
    natToLEBytes_length 8 _
  rw [GetUnixNanoFromID, generateIDsOnce_eq,
    if_pos (by rw [List.length_append, hts, hdg]; omega),
    List.take_left' hts, leBytesToNat_natToLEBytes]
  have hlt : int64ToUInt64 timestamp < 2 ^ (8 * 8) := by
    have := int64ToUInt64_lt timestamp
    norm_num
    exact this
  rw [Nat.mod_eq_of_lt hlt]
  exact uint64ToInt64_int64ToUInt64 timestamp hlo hhi

/-- C5 (witness). -/
theorem C5_timestampRoundTrip_witness :
    (-(2 : Int) ^ 63 ≤ 1) ∧ ((1 : Int) < 2 ^ 63) ∧
    GetUnixNanoFromID (generateIDsOnce (fun _ => 5) 1 [1, 2, 3, 4, 5, 6] 0) = 1 :=
  ⟨by decide, by decide,
   C5_timestampRoundTrip (fun _ => 5) 1 [1, 2, 3, 4, 5, 6] 0 (by decide) (by decide)⟩

theorem firstNonLo_of_all_lo (ifaces : List NetInterface)
    (hall : ∀ i ∈ ifaces, i.name = "lo") : firstNonLo ifaces = none := by
  induction ifaces with
  | nil => rfl
  | cons i rest ih =>
    rw [firstNonLo, if_neg (by simpa using hall i (by simp))]
    exact ih fun j hj => hall j (by simp [hj])

theorem firstNonLo_append (pre : List NetInterface) (i : NetInterface)
    (post : List NetInterface) (hpre : ∀ j ∈ pre, j.name = "lo")
    (hi : i.name ≠ "lo") : firstNonLo (pre ++ i :: post) = some i := by
  induction pre with
  | nil => rw [List.nil_append, firstNonLo, if_pos hi]
  | cons p rest ih =>
    rw [List.cons_append, firstNonLo, if_neg (by simpa using hpre p (by simp))]
    exact ih fun j hj => hpre j (by simp [hj])

/-- C6: on any slice of ids, the `ByIDCreationTime` comparator puts `a[i]`
before `a[j]` exactly when the timestamp embedded in `a[i]` is strictly
below the one embedded in `a[j]`; and sorting with this comparator yields
a permutation of the slice that is sorted by non-decreasing embedded
timestamp. -/
theorem C6_comparatorSorts (a : List (List Nat)) (i j : Nat)
    (_hi : i < a.length) (_hj : j < a.length) :
    (lessByCreationTime a i j = true ↔
      GetUnixNanoFromID (a.getD i []) < GetUnixNanoFromID (a.getD j [])) ∧
    (sortByCreationTime a).Perm a ∧
    List.Sorted idOrder (sortByCreationTime a) :=
  ⟨by rw [lessByCreationTime, decide_eq_true_iff],
   List.perm_insertionSort idOrder a,
   List.sorted_insertionSort idOrder a⟩

/-- C6 (witness): a concrete two-element slice with 8-byte ids embedding
timestamps 2 and 1. -/
theorem C6_comparatorSorts_witness :
    (0 < ([[2, 0, 0, 0, 0, 0, 0, 0], [1, 0, 0, 0, 0, 0, 0, 0]] : List (List Nat)).length) ∧
    (1 < ([[2, 0, 0, 0, 0, 0, 0, 0], [1, 0, 0, 0, 0, 0, 0, 0]] : List (List Nat)).length) ∧
    ((lessByCreationTime [[2, 0, 0, 0, 0, 0, 0, 0], [1, 0, 0, 0, 0, 0, 0, 0]] 0 1 = true ↔
        GetUnixNanoFromID
            (([[2, 0, 0, 0, 0, 0, 0, 0], [1, 0, 0, 0, 0, 0, 0, 0]] : List (List Nat)).getD 0 []) <
          GetUnixNanoFromID
            (([[2, 0, 0, 0, 0, 0, 0, 0], [1, 0, 0, 0, 0, 0, 0, 0]] : List (List Nat)).getD 1 [])) ∧
      (sortByCreationTime [[2, 0, 0, 0, 0, 0, 0, 0], [1, 0, 0, 0, 0, 0, 0, 0]]).Perm
        [[2, 0, 0, 0, 0, 0, 0, 0], [1, 0, 0, 0, 0, 0, 0, 0]] ∧
      List.Sorted idOrder
        (sortByCreationTime [[2, 0, 0, 0, 0, 0, 0, 0], [1, 0, 0, 0, 0, 0, 0, 0]])) :=
  ⟨by decide, by decide,
   C6_comparatorSorts [[2, 0, 0, 0, 0, 0, 0, 0], [1, 0, 0, 0, 0, 0, 0, 0]] 0 1
     (by decide) (by decide)⟩

/-- C7: `GetMACAddress` fails in exactly two cases — interface enumeration
failed (the enumeration error is what is propagated), or every enumerated
interface is named lo — and otherwise returns the hardware address of the
first interface not named lo. -/
theorem C7_firstNonLoopback :
    (∀ e, GetMACAddress (.error e) = .err e) ∧
    (∀ ifaces : List NetInterface, (∀ i ∈ ifaces, i.name = "lo") →
      GetMACAddress (.ok ifaces) = .err noSuitableMsg) ∧
    (∀ (pre : List NetInterface) (i : NetInterface) (post : List NetInterface),
      (∀ j ∈ pre, j.name = "lo") → i.name ≠ "lo" →
      GetMACAddress (.ok (pre ++ i :: post)) = .ok i.hardwareAddr) := by
  refine ⟨fun e => rfl, fun ifaces hall => ?_, fun pre i post hpre hi => ?_⟩
  · rw [GetMACAddress, firstNonLo_of_all_lo ifaces hall]
  · rw [GetMACAddress, firstNonLo_append pre i post hpre hi]

/-- C7 (witness): one loopback interface followed by an eth0 interface
with a 6-byte address. -/
theorem C7_firstNonLoopback_witness :
    (∀ j ∈ ([⟨"lo", []⟩] : List NetInterface), j.name = "lo") ∧
    (NetInterface.name ⟨"eth0", [1, 2, 3, 4, 5, 6]⟩ ≠ "lo") ∧
    GetMACAddress (.ok ([⟨"lo", []⟩] ++ ⟨"eth0", [1, 2, 3, 4, 5, 6]⟩ :: [])) =
      .ok [1, 2, 3, 4, 5, 6] :=
  ⟨by decide, by decide,
   C7_firstNonLoopback.2.2 [⟨"lo", []⟩] ⟨"eth0", [1, 2, 3, 4, 5, 6]⟩ []
     (by decide) (by decide)⟩

/-- C8: `GenerateNIDs` sizes the shared channel at 128 times the number of
processing units and starts exactly one producer per unit, with worker
indices 0 through cpuCount-1 in order, each given the same mac. -/
theorem C8_spawnsOnePerCPU (cpuCount : Nat) (recv : Nat → List Nat)
    (mac : List Nat) (n : Nat) :
    (GenerateNIDs cpuCount recv mac n).chanCapacity = 128 * cpuCount ∧
    (GenerateNIDs cpuCount recv mac n).producers.length = cpuCount ∧
    ∀ k, k < cpuCount →
      (GenerateNIDs cpuCount recv mac n).producers.getD k ([], 0) = (mac, k) := by
  refine ⟨rfl, by simp [GenerateNIDs], fun k hk => ?_⟩
  simp [GenerateNIDs, List.getD_eq_getElem?_getD, List.getElem?_map,
    List.getElem?_range hk]

/-- C8 (witness). -/
theorem C8_spawnsOnePerCPU_witness :
    (GenerateNIDs 4 (fun k => [k]) [9, 8] 2).chanCapacity = 128 * 4 ∧
    (GenerateNIDs 4 (fun k => [k]) [9, 8] 2).producers.length = 4 ∧
    (3 < 4) ∧
    (GenerateNIDs 4 (fun k => [k]) [9, 8] 2).producers.getD 3 ([], 0) = ([9, 8], 3) :=
  ⟨(C8_spawnsOnePerCPU 4 (fun k => [k]) [9, 8] 2).1,
   (C8_spawnsOnePerCPU 4 (fun k => [k]) [9, 8] 2).2.1, by decide,
   (C8_spawnsOnePerCPU 4 (fun k => [k]) [9, 8] 2).2.2 3 (by decide)⟩

/-- C9: on every input shorter than 8 bytes `GetUnixNanoFromID` returns 0
(the discarded read error leaves the zero value in place), and this result
is indistinguishable from decoding a well-formed 16-byte identifier whose
embedded timestamp is the epoch 0; the function signals no error for any
input. -/
theorem C9_shortInputGivesZero :
    (∀ id : List Nat, id.length < 8 → GetUnixNanoFromID id = 0) ∧
    GetUnixNanoFromID (List.replicate 16 0) = 0 := by
  refine ⟨fun id hlt => ?_, by decide⟩
  rw [GetUnixNanoFromID, if_neg (by omega)]

/-- C9 (witness): the empty input and a 2-byte input both give 0. -/
theorem C9_shortInputGivesZero_witness :
    GetUnixNanoFromID [] = 0 ∧ GetUnixNanoFromID [255, 255] = 0 :=
  ⟨C9_shortInputGivesZero.1 [] (by decide),
   C9_shortInputGivesZero.1 [255, 255] (by decide)⟩

/-- C10: `GetMACAddress` checks only that the interface name is not the
literal string lo and never validates the address: an interface list whose
first entry is a loopback named lo0 yields success with its empty address,
and a list whose first non-lo entry carries a 2-byte address yields
success with that non-6-byte address. -/
theorem C10_noAddressValidation :
    GetMACAddress (.ok [⟨"lo0", []⟩]) = .ok [] ∧
    ([] : List Nat).length ≠ 6 ∧
    GetMACAddress (.ok [⟨"lo", [0]⟩, ⟨"eth0", [1, 2]⟩]) = .ok [1, 2] ∧
    ([1, 2] : List Nat).length ≠ 6 := by
  decide

end Idgen
